import Mathlib

/-!
Verification of `graphviz/backend/rendering.py` (format resolution and the
`render` orchestrator).  Strings are modelled as `List Char`; `pathlib.Path`
values as a root flag plus a list of name components; the filesystem as the
list of path strings for which `os.path.exists` holds; the external process
runner (`execute.run_check`, the stub engine that always succeeds) as a record
of the invocation that `render` would hand to it.
-/

namespace Gviz

/-- Python strings, modelled as lists of characters. -/
abbrev Str := List Char

/-- Join a list of strings with a separator character between them
(Python `sep.join(xs)` for a one-character separator). -/
def joinWith (sep : Char) : List Str → Str
  | [] => []
  | [x] => x
  | x :: xs => x ++ sep :: joinWith sep xs

/-- Lexicographic boolean order on strings, used to model Python `sorted`. -/
def strLe : Str → Str → Bool
  | [], _ => true
  | _ :: _, [] => false
  | a :: as, b :: bs => if a = b then strLe as bs else decide (a < b)

/-- Insert into a `strLe`-sorted list (helper for modelling `sorted`). -/
def insertSorted (x : Str) : List Str → List Str
  | [] => [x]
  | y :: ys => if strLe x y then x :: y :: ys else y :: insertSorted x ys

/-- Python `sorted` on a list of strings (insertion sort). -/
def sortStrs (xs : List Str) : List Str := List.foldr insertSorted [] xs

/-- A `pathlib.Path`: `root` is true for absolute paths, `parts` are the
non-root components (so `Path('.')` is `⟨false, []⟩`, `Path('/')` is
`⟨true, []⟩`, `Path('a/b.gv')` is `⟨false, ["a", "b.gv"]⟩`). -/
structure PyPath where
  root : Bool
  parts : List Str
deriving DecidableEq, Repr

/-- `Path.name`: the final component, `''` when there is none. -/
def PyPath.name (p : PyPath) : Str := (p.parts.getLast?).getD []

/-- `Path.parent`: drop the final component; `Path('.')` and `Path('/')`
are their own parents. -/
def PyPath.parent (p : PyPath) : PyPath :=
  if p.parts = [] then p else { root := p.root, parts := p.parts.dropLast }

/-- `Path.parts` as pathlib reports them: an absolute path contributes a
leading `'/'` entry. -/
def PyPath.pathlibParts (p : PyPath) : List Str :=
  (if p.root then ["/".data] else []) ++ p.parts

/-- Index of the last `'.'` in a string, if any (Python `str.rfind('.')`
restricted to the found case). -/
def rfindDot : Str → Option Nat
  | [] => none
  | c :: cs =>
    match rfindDot cs with
    | some i => some (i + 1)
    | none => if c = '.' then some 0 else none

/-- `Path.suffix` (CPython: the slice from the last dot when
`0 < i < len(name) - 1`, else `''`; so `'spam.gv'` gives `'.gv'`,
`'.gv'`, `'spam.'` and `'spam'` give `''`). -/
def PyPath.suffix (p : PyPath) : Str :=
  match rfindDot p.name with
  | some i => if 0 < i ∧ i < p.name.length - 1 then p.name.drop i else []
  | none => []

/-- `Path.with_suffix(suffix)` for a valid dotted suffix: replace (or append,
when there is none) the final suffix of the name; `none` models the
`ValueError` pathlib raises when the path has an empty name. -/
def PyPath.with_suffix (p : PyPath) (sfx : Str) : Option PyPath :=
  if p.name = [] then none
  else
    let old := p.suffix
    let newName := if old = [] then p.name ++ sfx
                   else p.name.take (p.name.length - old.length) ++ sfx
    some { root := p.root, parts := p.parts.dropLast ++ [newName] }

/-- Collapse `'.'` and `'..'` components, as `Path.resolve` does once the
path is absolute (symlink-free filesystem assumed). -/
def resolveParts (parts : List Str) : List Str :=
  List.foldl (fun acc c =>
    if c = ".".data then acc
    else if c = "..".data then acc.dropLast
    else acc ++ [c]) [] parts

/-- `Path.resolve()`: absolutise against the process working directory `cwd`
and normalise. -/
def PyPath.resolve (cwd : List Str) (p : PyPath) : PyPath :=
  { root := true, parts := resolveParts (if p.root then p.parts else cwd ++ p.parts) }

/-- `os.fspath` / `str` of a path (POSIX separator). -/
def PyPath.fspath (p : PyPath) : Str :=
  if p.root then '/' :: joinWith '/' p.parts
  else if p.parts = [] then ".".data
  else joinWith '/' p.parts

/-- `Path / name` for a plain file name `child` (no separators). -/
def PyPath.joinpath (p : PyPath) (child : Str) : PyPath :=
  { root := p.root, parts := p.parts ++ [child] }

/-- `promote_pathlike`: `None` stays `None`; model inputs are already
structured paths, so promotion is the identity on present values. -/
def promote_pathlike (filepath : Option PyPath) : Option PyPath := filepath

/-- Modelled from the spec: `parameters.verify_format` (the externally-owned
format registry is not under `src/`) — membership of the supported-format
set, injected as the parameter `fmts`. -/
def verify_format (fmts : List Str) (format : Str) : Bool :=
  decide (format ∈ fmts)

/-- `get_supported_formats`: sorted list of supported formats. -/
def get_supported_formats (fmts : List Str) : List Str := sortStrs fmts

/-- `get_supported_suffixes`: `'.{format}'` for each supported format. -/
def get_supported_suffixes (fmts : List Str) : List Str :=
  (get_supported_formats fmts).map (fun f => '.' :: f)

/-- The `ValueError`s of `infer_rendering_format`, with the values the
messages interpolate. -/
inductive InferError where
  | missingSuffix (outfileStr : Str)
  | unknownFormat (sfx outfileStr format : Str) (validSuffixes : List Str)
deriving DecidableEq, Repr

/-- The warning categories emitted during format resolution, with the values
their messages interpolate. -/
inductive RWarning where
  | unknownSuffix (sfx expected : Str)
  | formatSuffixMismatch (expected given : Str)
deriving DecidableEq, Repr

/-- The errors `render` and its helpers raise, with the values the messages
interpolate. -/
inductive RenderError where
  | mutualExclusion
  | formatRequiredForOutfile (sfx outfileStr : Str) (validSuffixes : List Str)
  | formatRequired
  | filepathRequired
  | formatterRequiresRenderer
  | unknownEngine (engine : Str)
  | unknownFormat (format : Str)
  | sameFile (outName inName : Str)
  | resultExists (path : Str)
  | emptyPathName
deriving DecidableEq, Repr

/-- `infer_rendering_format`: format from the outfile suffix, lower-cased and
validated against the supported set. -/
def infer_rendering_format (fmts : List Str) (outfile : PyPath) :
    Except InferError Str :=
  if outfile.suffix = [] then
    .error (.missingSuffix outfile.fspath)
  else if verify_format fmts ((outfile.suffix.drop 1).map Char.toLower) then
    .ok ((outfile.suffix.drop 1).map Char.toLower)
  else
    .error (.unknownFormat outfile.suffix outfile.fspath
             ((outfile.suffix.drop 1).map Char.toLower)
             (get_supported_suffixes fmts))

/-- `get_rendering_format`: the given format falling back to the inferred
format, together with the warnings emitted. -/
def get_rendering_format (fmts : List Str) (outfile : PyPath)
    (format : Option Str) : Except RenderError (Str × List RWarning) :=
  match infer_rendering_format fmts outfile with
  | .error _ =>
    match format with
    | none => .error (.formatRequiredForOutfile outfile.suffix outfile.fspath
                       (get_supported_suffixes fmts))
    | some f => .ok (f, [.unknownSuffix outfile.suffix ('.' :: f)])
  | .ok result =>
    match format with
    | some f =>
      if f.map Char.toLower ≠ result then
        .ok (f, [.formatSuffixMismatch result f])
      else .ok (result, [])
    | none => .ok (result, [])

/-- Modelled from the spec: the fixed default source suffix substituted when
the source path is derived from the output path (`DEFAULT_SOURCE_EXTENSION`
from `graphviz._defaults` is not under `src/`; the spec's examples use
`spam.gv`). -/
def DEFAULT_SOURCE_EXTENSION : Str := "gv".data

/-- Modelled from the spec: the Command Builder (`graphviz.backend.dot_command`
is not under `src/`).  Fails with a formatter-requires-renderer error when
`formatter` is given without `renderer`, validates engine and format against
the injected registry sets, and produces the engine invocation prefix encoding
engine, format, renderer and formatter as flags. -/
def dot_command (engines fmts : List Str) (engine format : Str)
    (renderer formatter : Option Str) : Except RenderError (List Str) :=
  if formatter.isSome ∧ renderer.isNone then
    .error .formatterRequiresRenderer
  else if engine ∉ engines then
    .error (.unknownEngine engine)
  else if ¬ verify_format fmts format then
    .error (.unknownFormat format)
  else
    .ok ["dot".data, "-K".data ++ engine,
         "-T".data ++ joinWith ':' (List.filterMap id [some format, renderer, formatter])]

/-- The record of a successful `render`: the argument vector and working
directory handed to `execute.run_check`, the `quiet` flag, the returned
result path string, and the warnings emitted on the way. -/
structure RenderOk where
  cmd : List Str
  cwd_arg : Option Str
  quiet : Bool
  rendered : Str
  warnings : List RWarning
deriving DecidableEq, Repr

/-- The pure part of `render`, everything before the result-exists check:
mutual-exclusion precondition, mode selection, format resolution, command
building, source derivation, the collision check, and the output-path
argument strategy.  Returns the source path, the command, the result path
and the warnings. -/
def renderCore (engines fmts : List Str) (cwd : List Str)
    (engine : Str) (format : Option Str) (filepath : Option PyPath)
    (renderer formatter : Option Str) (outfile : Option PyPath)
    (raise_if_result_exists overwrite_filepath : Bool) :
    Except RenderError (PyPath × List Str × PyPath × List RWarning) :=
  if raise_if_result_exists ∧ overwrite_filepath then
    .error .mutualExclusion
  else
    match promote_pathlike outfile with
    | some ou =>
      match get_rendering_format fmts ou format with
      | .error e => .error e
      | .ok (fmt, warns) =>
        match dot_command engines fmts engine fmt renderer formatter with
        | .error e => .error e
        | .ok cmd0 =>
          match (match promote_pathlike filepath with
                 | none => ou.with_suffix ('.' :: DEFAULT_SOURCE_EXTENSION)
                 | some fp => some fp) with
          | none => .error .emptyPathName
          | some fp =>
            if ¬ overwrite_filepath ∧ ou.name = fp.name
                ∧ ou.resolve cwd = fp.resolve cwd then
              .error (.sameFile ou.name fp.name)
            else
              let outfile_arg := if ou.parent ≠ fp.parent
                                 then (ou.resolve cwd).fspath else ou.name
              .ok (fp, cmd0 ++ ["-o".data, outfile_arg, fp.name], ou, warns)
    | none =>
      match format with
      | none => .error .formatRequired
      | some fmt =>
        match promote_pathlike filepath with
        | none => .error .filepathRequired
        | some fp =>
          match dot_command engines fmts engine fmt renderer formatter with
          | .error e => .error e
          | .ok cmd0 =>
            let sfx := joinWith '.' (List.filterMap id [formatter, renderer, some fmt])
            .ok (fp, cmd0 ++ ["-O".data, fp.name],
                 fp.parent.joinpath (fp.name ++ '.' :: sfx), [])

/-- `render`: the core above, then the result-exists check against the
filesystem `fs` (the extension of `os.path.exists`), then the invocation
record a stub engine that always succeeds would produce. -/
def render (engines fmts : List Str) (cwd : List Str) (fs : List Str)
    (engine : Str) (format : Option Str) (filepath : Option PyPath)
    (renderer formatter : Option Str) (quiet : Bool)
    (outfile : Option PyPath)
    (raise_if_result_exists overwrite_filepath : Bool) :
    Except RenderError RenderOk :=
  match renderCore engines fmts cwd engine format filepath renderer formatter
          outfile raise_if_result_exists overwrite_filepath with
  | .error e => .error e
  | .ok (fp, cmd, rendered, warns) =>
    if raise_if_result_exists ∧ rendered.fspath ∈ fs then
      .error (.resultExists rendered.fspath)
    else
      .ok { cmd := cmd,
            cwd_arg := if fp.parent.pathlibParts ≠ [] then some fp.parent.fspath
                       else none,
            quiet := quiet, rendered := rendered.fspath, warnings := warns }

/-- The result path of default-naming mode as the spec words it: source
directory + source full name + `'.'` + joined non-null suffix components, in
the fixed order formatter, renderer, format.  (Spec-side definition, to be
compared with what `render` returns.) -/
def spec_default_result (P : PyPath) (F : Str) (renderer formatter : Option Str) : Str :=
  (P.parent.joinpath
    (P.name ++ '.' :: joinWith '.' (List.filterMap id [formatter, renderer, some F]))).fspath

/-! ## Theorems -/

/-- A path with a non-empty suffix has a non-empty name. -/
theorem name_ne_nil_of_suffix_ne_nil (p : PyPath) (h : p.suffix ≠ []) :
    p.name ≠ [] := by
  intro hn
  apply h
  unfold PyPath.suffix
  rw [hn]
  rfl

/-- A non-empty suffix is a final segment of the name cut at an interior
dot position. -/
theorem suffix_drop (p : PyPath) (h : p.suffix ≠ []) :
    ∃ i, 0 < i ∧ i < p.name.length - 1 ∧ p.suffix = p.name.drop i := by
  unfold PyPath.suffix at h ⊢
  revert h
  cases hr : rfindDot p.name with
  | none => intro h; exact absurd rfl h
  | some i =>
    intro h
    by_cases hc : 0 < i ∧ i < p.name.length - 1
    · exact ⟨i, hc.1, hc.2, if_pos hc⟩
    · exact absurd (if_neg hc) h

/-- Replacing a path's suffix by itself gives the path back
(`Path('spam.gv').with_suffix('.gv') == Path('spam.gv')`). -/
theorem with_suffix_self (p : PyPath) (h : p.suffix ≠ []) :
    p.with_suffix p.suffix = some p := by
  have hn := name_ne_nil_of_suffix_ne_nil p h
  obtain ⟨i, hi0, hi1, hs⟩ := suffix_drop p h
  have hlen : p.name.length - p.suffix.length = i := by
    rw [hs, List.length_drop]; omega
  have hname : p.name.take (p.name.length - p.suffix.length) ++ p.suffix = p.name := by
    rw [hlen, hs]; exact List.take_append_drop i p.name
  have hparts : p.parts ≠ [] := by
    intro hp; apply hn; unfold PyPath.name; rw [hp]; rfl
  have hlast : p.parts.dropLast ++ [p.name] = p.parts := by
    unfold PyPath.name
    rw [List.getLast?_eq_getLast _ hparts]
    simpa using List.dropLast_append_getLast hparts
  simp only [PyPath.with_suffix]
  rw [if_neg hn, if_neg h, hname, hlast]

/-- `dot_command` only ever fails with one of its three configuration
errors. -/
theorem dot_command_error_shape (engines fmts : List Str) (engine format : Str)
    (renderer formatter : Option Str) (e : RenderError)
    (h : dot_command engines fmts engine format renderer formatter = .error e) :
    e = .formatterRequiresRenderer ∨ e = .unknownEngine engine
    ∨ e = .unknownFormat format := by
  unfold dot_command at h
  split at h
  · exact Or.inl (Except.error.inj h).symm
  · split at h
    · exact Or.inr (Or.inl (Except.error.inj h).symm)
    · split at h
      · exact Or.inr (Or.inr (Except.error.inj h).symm)
      · exact absurd h (by simp)

/-- `get_rendering_format` only ever fails with the required-argument error
naming the valid suffixes. -/
theorem get_rendering_format_error_shape (fmts : List Str) (ou : PyPath)
    (format : Option Str) (e : RenderError)
    (h : get_rendering_format fmts ou format = .error e) :
    e = .formatRequiredForOutfile ou.suffix ou.fspath (get_supported_suffixes fmts) := by
  unfold get_rendering_format at h
  cases hinf : infer_rendering_format fmts ou with
  | error e' =>
    rw [hinf] at h
    cases format with
    | none => exact (Except.error.inj h).symm
    | some f => exact absurd h (by simp)
  | ok X =>
    rw [hinf] at h
    cases format with
    | none => exact absurd h (by simp)
    | some f =>
      by_cases hc : List.map Char.toLower f ≠ X
      · exact absurd h (by simp [hc])
      · exact absurd h (by simp [hc])

/-- Inversion for a successful `render`: the core succeeded, the result-exists
check passed, and the result record is assembled from the core's output. -/
theorem render_ok_inv (engines fmts cwd fs : List Str) (engine : Str)
    (format : Option Str) (filepath : Option PyPath)
    (renderer formatter : Option Str) (quiet : Bool) (outfile : Option PyPath)
    (rie ow : Bool) (r : RenderOk)
    (h : render engines fmts cwd fs engine format filepath renderer formatter
           quiet outfile rie ow = .ok r) :
    ∃ fp cmd rendered warns,
      renderCore engines fmts cwd engine format filepath renderer formatter
          outfile rie ow = .ok (fp, cmd, rendered, warns)
      ∧ ¬(rie = true ∧ rendered.fspath ∈ fs)
      ∧ r = { cmd := cmd,
              cwd_arg := if fp.parent.pathlibParts ≠ [] then some fp.parent.fspath
                         else none,
              quiet := quiet, rendered := rendered.fspath, warnings := warns } := by
  unfold render at h
  revert h
  cases hc : renderCore engines fmts cwd engine format filepath renderer formatter
      outfile rie ow with
  | error e => intro h; exact absurd h (by simp)
  | ok v =>
    obtain ⟨fp, cmd, rendered, warns⟩ := v
    intro h
    dsimp only at h
    split at h
    · exact absurd h (by simp)
    · rename_i hcond
      exact ⟨fp, cmd, rendered, warns, rfl, hcond, (Except.ok.inj h).symm⟩

/-- What the explicit-output mode of the core computes, once format
resolution and command building have succeeded and the source path is in
hand (given directly, or derived from the outfile). -/
theorem renderCore_explicit (engines fmts cwd : List Str) (engine : Str)
    (format : Option Str) (renderer formatter : Option Str)
    (filepath : Option PyPath) (fp ou : PyPath) (rie ow : Bool)
    (fmt : Str) (warns : List RWarning) (cmd0 : List Str)
    (hme : ¬(rie = true ∧ ow = true))
    (hfmt : get_rendering_format fmts ou format = .ok (fmt, warns))
    (hcmd : dot_command engines fmts engine fmt renderer formatter = .ok cmd0)
    (hfp : (match filepath with
            | none => ou.with_suffix ('.' :: DEFAULT_SOURCE_EXTENSION)
            | some fp0 => some fp0) = some fp) :
    renderCore engines fmts cwd engine format filepath renderer formatter
        (some ou) rie ow
      = if ¬ow ∧ ou.name = fp.name ∧ ou.resolve cwd = fp.resolve cwd
        then .error (.sameFile ou.name fp.name)
        else .ok (fp,
               cmd0 ++ ["-o".data,
                 (if ou.parent ≠ fp.parent then (ou.resolve cwd).fspath else ou.name),
                 fp.name],
               ou, warns) := by
  unfold renderCore
  rw [if_neg hme]
  simp only [promote_pathlike, hfmt, hcmd, hfp]

/-- What the default-naming mode of the core computes, once command building
has succeeded. -/
theorem renderCore_default (engines fmts cwd : List Str) (engine : Str)
    (renderer formatter : Option Str) (F : Str) (P : PyPath) (rie ow : Bool)
    (cmd0 : List Str)
    (hme : ¬(rie = true ∧ ow = true))
    (hcmd : dot_command engines fmts engine F renderer formatter = .ok cmd0) :
    renderCore engines fmts cwd engine (some F) (some P) renderer formatter
        none rie ow
      = .ok (P, cmd0 ++ ["-O".data, P.name],
             P.parent.joinpath
               (P.name ++ '.' :: joinWith '.'
                 (List.filterMap id [formatter, renderer, some F])),
             []) := by
  unfold renderCore
  rw [if_neg hme]
  simp only [promote_pathlike, hcmd]

/-- C5: whenever `raise_if_result_exists` and `overwrite_filepath` are both
true, `render` fails with the mutual-exclusion configuration error, for every
working directory, filesystem state and combination of the other arguments —
the check comes before any path resolution or filesystem access. -/
theorem claimC5_mutual_exclusion_first (engines fmts cwd fs : List Str)
    (engine : Str) (format : Option Str) (filepath : Option PyPath)
    (renderer formatter : Option Str) (quiet : Bool) (outfile : Option PyPath) :
    render engines fmts cwd fs engine format filepath renderer formatter quiet
        outfile true true
      = .error .mutualExclusion := by
  simp [render, renderCore]

/-- C1: when the outfile suffix infers a supported format `X` and the explicit
format `Y` lower-cases to something different, `get_rendering_format` emits
the format/suffix mismatch warning and returns the explicit format `Y`. -/
theorem claimC1_explicit_format_wins (fmts : List Str) (outfile : PyPath)
    (X Y : Str) (hX : infer_rendering_format fmts outfile = .ok X)
    (hY : Y.map Char.toLower ≠ X) :
    get_rendering_format fmts outfile (some Y)
      = .ok (Y, [.formatSuffixMismatch X Y]) := by
  simp [get_rendering_format, hX, hY]

/-- C1 witness: `spam.png` with explicit format `pdf`. -/
theorem claimC1_witness :
    infer_rendering_format ["png".data] ⟨false, ["spam.png".data]⟩ = .ok "png".data
    ∧ ("pdf".data).map Char.toLower ≠ "png".data
    ∧ get_rendering_format ["png".data] ⟨false, ["spam.png".data]⟩ (some "pdf".data)
        = .ok ("pdf".data, [.formatSuffixMismatch "png".data "pdf".data]) :=
  ⟨by rfl, by decide,
   claimC1_explicit_format_wins ["png".data] ⟨false, ["spam.png".data]⟩
     "png".data "pdf".data (by rfl) (by decide)⟩

/-- C3: when the outfile suffix is empty or its (lower-cased) format is not in
the supported set, `get_rendering_format` without an explicit format fails
with the required-argument error that names the set of valid suffixes, and
with an explicit format it emits the unknown-suffix warning and returns that
format. -/
theorem claimC3_unknown_suffix_fallback (fmts : List Str) (outfile : PyPath)
    (h : outfile.suffix = []
         ∨ ((outfile.suffix.drop 1).map Char.toLower) ∉ fmts) :
    get_rendering_format fmts outfile none
        = .error (.formatRequiredForOutfile outfile.suffix outfile.fspath
                    (get_supported_suffixes fmts))
    ∧ ∀ f : Str, get_rendering_format fmts outfile (some f)
        = .ok (f, [.unknownSuffix outfile.suffix ('.' :: f)]) := by
  have hinf : ∃ e, infer_rendering_format fmts outfile = .error e := by
    by_cases hs : outfile.suffix = []
    · refine ⟨.missingSuffix outfile.fspath, ?_⟩
      unfold infer_rendering_format
      rw [if_pos hs]
    · have h' : ((outfile.suffix.drop 1).map Char.toLower) ∉ fmts := by
        rcases h with h | h
        · exact absurd h hs
        · exact h
      refine ⟨.unknownFormat outfile.suffix outfile.fspath
                ((outfile.suffix.drop 1).map Char.toLower)
                (get_supported_suffixes fmts), ?_⟩
      unfold infer_rendering_format
      rw [if_neg hs, if_neg (by simpa [verify_format] using h')]
  rcases hinf with ⟨e, he⟩
  exact ⟨by simp [get_rendering_format, he], fun f => by simp [get_rendering_format, he]⟩

/-- C3 witness: `spam.mp3` with `mp3` unsupported, without and with an
explicit format `pdf`. -/
theorem claimC3_witness :
    ((⟨false, ["spam.mp3".data]⟩ : PyPath).suffix = []
      ∨ (((⟨false, ["spam.mp3".data]⟩ : PyPath).suffix.drop 1).map Char.toLower)
          ∉ ["png".data])
    ∧ get_rendering_format ["png".data] ⟨false, ["spam.mp3".data]⟩ none
        = .error (.formatRequiredForOutfile ".mp3".data "spam.mp3".data [".png".data])
    ∧ get_rendering_format ["png".data] ⟨false, ["spam.mp3".data]⟩ (some "pdf".data)
        = .ok ("pdf".data, [.unknownSuffix ".mp3".data ".pdf".data]) :=
  ⟨Or.inr (by decide),
   (claimC3_unknown_suffix_fallback ["png".data] ⟨false, ["spam.mp3".data]⟩
      (Or.inr (by decide))).1,
   (claimC3_unknown_suffix_fallback ["png".data] ⟨false, ["spam.mp3".data]⟩
      (Or.inr (by decide))).2 "pdf".data⟩

/-- C7 counterexample: the claim says every format value returned by
`get_rendering_format` is lower-cased; but on a format/suffix mismatch the
explicit format is returned verbatim — `spam.png` with explicit `SVG`
returns `SVG`, which is not lower-cased. -/
theorem claimC7_counterexample :
    get_rendering_format ["png".data, "svg".data] ⟨false, ["spam.png".data]⟩
        (some "SVG".data)
      = .ok ("SVG".data, [.formatSuffixMismatch "png".data "SVG".data])
    ∧ "SVG".data ≠ ("SVG".data).map Char.toLower :=
  ⟨by rfl, by decide⟩

/-- C7 amended: suffix inference lower-cases (the inferred format is the
lower-cased suffix, so `spam.PNG` resolves to `png`), and the format/suffix
comparison is case-insensitive: an explicit format that agrees with the
inferred one up to case yields the lower-cased inferred value with no
warning.  (When the explicit format wins — mismatch or unknown suffix — it
is returned as given, not lower-cased.) -/
theorem claimC7_amended_lowercase_inference (fmts : List Str) (outfile : PyPath)
    (X : Str) (hX : infer_rendering_format fmts outfile = .ok X) :
    X = (outfile.suffix.drop 1).map Char.toLower
    ∧ get_rendering_format fmts outfile none = .ok (X, [])
    ∧ ∀ f : Str, f.map Char.toLower = X →
        get_rendering_format fmts outfile (some f) = .ok (X, []) := by
  refine ⟨?_, by simp [get_rendering_format, hX], ?_⟩
  · unfold infer_rendering_format at hX
    by_cases hs : outfile.suffix = []
    · rw [if_pos hs] at hX
      exact absurd hX (by simp)
    · rw [if_neg hs] at hX
      by_cases hv : verify_format fmts ((outfile.suffix.drop 1).map Char.toLower) = true
      · rw [if_pos hv] at hX
        exact (Except.ok.inj hX).symm
      · rw [if_neg hv] at hX
        exact absurd hX (by simp)
  · intro f hf
    simp [get_rendering_format, hX, hf]

/-- C7 witness: `spam.PNG` resolves to `png`, also with explicit `PNG`. -/
theorem claimC7_witness :
    infer_rendering_format ["png".data] ⟨false, ["spam.PNG".data]⟩ = .ok "png".data
    ∧ get_rendering_format ["png".data] ⟨false, ["spam.PNG".data]⟩ none
        = .ok ("png".data, [])
    ∧ get_rendering_format ["png".data] ⟨false, ["spam.PNG".data]⟩ (some "PNG".data)
        = .ok ("png".data, []) :=
  ⟨by rfl,
   (claimC7_amended_lowercase_inference ["png".data] ⟨false, ["spam.PNG".data]⟩
      "png".data (by rfl)).2.1,
   (claimC7_amended_lowercase_inference ["png".data] ⟨false, ["spam.PNG".data]⟩
      "png".data (by rfl)).2.2 "PNG".data (by decide)⟩

/-- Inversion for a successful default-naming-mode core run: the source is
the given path, no warnings, the result path follows the suffix-chain
formula, and the command is the `-O` form. -/
theorem renderCore_default_ok_inv (engines fmts cwd : List Str) (engine : Str)
    (renderer formatter : Option Str) (F : Str) (P : PyPath) (rie ow : Bool)
    (fp : PyPath) (cmd : List Str) (rendered : PyPath) (warns : List RWarning)
    (h : renderCore engines fmts cwd engine (some F) (some P) renderer formatter
           none rie ow = .ok (fp, cmd, rendered, warns)) :
    fp = P ∧ warns = []
    ∧ rendered = P.parent.joinpath
        (P.name ++ '.' :: joinWith '.' (List.filterMap id [formatter, renderer, some F]))
    ∧ ∃ cmd0, dot_command engines fmts engine F renderer formatter = .ok cmd0
        ∧ cmd = cmd0 ++ ["-O".data, P.name] := by
  by_cases hme : (rie = true ∧ ow = true)
  · unfold renderCore at h
    rw [if_pos hme] at h
    exact absurd h (by simp)
  · unfold renderCore at h
    rw [if_neg hme] at h
    simp only [promote_pathlike] at h
    revert h
    cases hd : dot_command engines fmts engine F renderer formatter with
    | error e => intro h; exact absurd h (by simp)
    | ok cmd0 =>
      intro h
      dsimp only at h
      have hinj := Except.ok.inj h
      simp only [Prod.mk.injEq] at hinj
      obtain ⟨h1, h2, h3, h4⟩ := hinj
      exact ⟨h1.symm, h4.symm, h3.symm, cmd0, rfl, h2.symm⟩

/-- Inversion for a successful explicit-output-mode core run: the result path
is the outfile, the source is the given path or the suffix-substituted
outfile, and the command ends with the `-o` form and the directory-sensitive
output-path argument. -/
theorem renderCore_explicit_ok_inv (engines fmts cwd : List Str) (engine : Str)
    (format : Option Str) (filepath : Option PyPath)
    (renderer formatter : Option Str) (ou : PyPath) (rie ow : Bool)
    (fp : PyPath) (cmd : List Str) (rendered : PyPath) (warns : List RWarning)
    (h : renderCore engines fmts cwd engine format filepath renderer formatter
           (some ou) rie ow = .ok (fp, cmd, rendered, warns)) :
    rendered = ou
    ∧ ((filepath = none
        ∧ ou.with_suffix ('.' :: DEFAULT_SOURCE_EXTENSION) = some fp)
       ∨ filepath = some fp)
    ∧ ∃ cmd0, cmd = cmd0 ++ ["-o".data,
        (if ou.parent ≠ fp.parent then (ou.resolve cwd).fspath else ou.name),
        fp.name] := by
  by_cases hme : (rie = true ∧ ow = true)
  · unfold renderCore at h
    rw [if_pos hme] at h
    exact absurd h (by simp)
  · unfold renderCore at h
    rw [if_neg hme] at h
    simp only [promote_pathlike] at h
    revert h
    cases hg : get_rendering_format fmts ou format with
    | error e => intro h; exact absurd h (by simp)
    | ok pr =>
      obtain ⟨fmt, warns0⟩ := pr
      intro h
      dsimp only at h
      revert h
      cases hd : dot_command engines fmts engine fmt renderer formatter with
      | error e => intro h; exact absurd h (by simp)
      | ok cmd0 =>
        cases filepath with
        | some fps =>
          intro h
          dsimp only at h
          split at h
          · exact absurd h (by simp)
          · have hinj := Except.ok.inj h
            simp only [Prod.mk.injEq] at hinj
            obtain ⟨h1, h2, h3, h4⟩ := hinj
            subst h1
            exact ⟨h3.symm, Or.inr rfl, cmd0, h2.symm⟩
        | none =>
          intro h
          dsimp only at h
          revert h
          cases hw : ou.with_suffix ('.' :: DEFAULT_SOURCE_EXTENSION) with
          | none => intro h; exact absurd h (by simp)
          | some fp0 =>
            intro h
            dsimp only at h
            split at h
            · exact absurd h (by simp)
            · have hinj := Except.ok.inj h
              simp only [Prod.mk.injEq] at hinj
              obtain ⟨h1, h2, h3, h4⟩ := hinj
              subst h1
              exact ⟨h3.symm, Or.inl ⟨rfl, rfl⟩, cmd0, h2.symm⟩

theorem renderCore_ow_true_ne_sameFile (engines fmts cwd : List Str)
    (engine : Str) (format : Option Str) (filepath : Option PyPath)
    (renderer formatter : Option Str) (outfile : Option PyPath) (rie : Bool)
    (a b : Str) :
    renderCore engines fmts cwd engine format filepath renderer formatter
        outfile rie true ≠ .error (.sameFile a b) := by
  intro h
  unfold renderCore at h
  by_cases hme : (rie = true ∧ (true : Bool) = true)
  · rw [if_pos hme] at h
    exact absurd (Except.error.inj h) (by simp)
  · rw [if_neg hme] at h
    simp only [promote_pathlike] at h
    cases outfile with
    | none =>
      dsimp only at h
      cases format with
      | none => simp at h
      | some fmt =>
        dsimp only at h
        cases filepath with
        | none => simp at h
        | some fps =>
          dsimp only at h
          revert h
          cases hd : dot_command engines fmts engine fmt renderer formatter with
          | error e =>
            intro h
            dsimp only at h
            have he : e = .sameFile a b := Except.error.inj h
            subst he
            rcases dot_command_error_shape _ _ _ _ _ _ _ hd with h' | h' | h' <;>
              simp at h'
          | ok cmd0 => intro h; simp at h
    | some ou =>
      dsimp only at h
      revert h
      cases hg : get_rendering_format fmts ou format with
      | error e =>
        intro h
        dsimp only at h
        have he : e = .sameFile a b := Except.error.inj h
        subst he
        have hsh := get_rendering_format_error_shape _ _ _ _ hg
        simp at hsh
      | ok pr =>
        obtain ⟨fmt, warns0⟩ := pr
        intro h
        dsimp only at h
        revert h
        cases hd : dot_command engines fmts engine fmt renderer formatter with
        | error e =>
          intro h
          dsimp only at h
          have he : e = .sameFile a b := Except.error.inj h
          subst he
          rcases dot_command_error_shape _ _ _ _ _ _ _ hd with h' | h' | h' <;>
            simp at h'
        | ok cmd0 =>
          cases filepath with
          | some fps =>
            intro h
            dsimp only at h
            simp at h
          | none =>
            intro h
            dsimp only at h
            revert h
            cases hw : ou.with_suffix ('.' :: DEFAULT_SOURCE_EXTENSION) with
            | none => intro h; simp at h
            | some fp0 =>
              intro h
              dsimp only at h
              simp at h

theorem render_ow_true_ne_sameFile (engines fmts cwd fs : List Str)
    (engine : Str) (format : Option Str) (filepath : Option PyPath)
    (renderer formatter : Option Str) (quiet : Bool) (outfile : Option PyPath)
    (rie : Bool) (a b : Str) :
    render engines fmts cwd fs engine format filepath renderer formatter quiet
        outfile rie true ≠ .error (.sameFile a b) := by
  intro h
  unfold render at h
  revert h
  cases hc : renderCore engines fmts cwd engine format filepath renderer formatter
      outfile rie true with
  | ok v =>
    obtain ⟨fp, cmd, rendered, warns⟩ := v
    intro h
    dsimp only at h
    split at h
    · exact absurd h (by simp)
    · exact absurd h (by simp)
  | error e =>
    intro h
    dsimp only at h
    have he : e = .sameFile a b := Except.error.inj h
    subst he
    exact renderCore_ow_true_ne_sameFile engines fmts cwd engine format filepath
      renderer formatter outfile rie a b hc

/-- C2: in default-naming mode (no outfile), a successful `render` with
format `F` and source path `P` returns exactly the spec's result path:
`P`'s directory joined with `P`'s full file name, a dot, and the dot-joined
non-null components in the order formatter, renderer, format. -/
theorem claimC2_default_result_path (engines fmts cwd fs : List Str)
    (engine : Str) (renderer formatter : Option Str) (quiet : Bool)
    (rie ow : Bool) (F : Str) (P : PyPath) (r : RenderOk)
    (h : render engines fmts cwd fs engine (some F) (some P) renderer formatter
           quiet none rie ow = .ok r) :
    r.rendered = spec_default_result P F renderer formatter := by
  obtain ⟨fp, cmd, rendered, warns, hc, hm, hr⟩ :=
    render_ok_inv engines fmts cwd fs engine (some F) (some P) renderer
      formatter quiet none rie ow r h
  obtain ⟨h1, h2, h3, _⟩ :=
    renderCore_default_ok_inv engines fmts cwd engine renderer formatter F P
      rie ow fp cmd rendered warns hc
  rw [hr, h3]
  rfl

/-- C2 witness: `render(dot, format=png, filepath=spam.gv)` returns
`spam.gv.png`, which is the spec's formula instantiated there. -/
theorem claimC2_witness :
    render ["dot".data] ["png".data] [] [] "dot".data (some "png".data)
        (some ⟨false, ["spam.gv".data]⟩) none none false none false false
      = .ok { cmd := ["dot".data, "-Kdot".data, "-Tpng".data, "-O".data,
                      "spam.gv".data],
              cwd_arg := none, quiet := false,
              rendered := "spam.gv.png".data, warnings := [] }
    ∧ ({ cmd := ["dot".data, "-Kdot".data, "-Tpng".data, "-O".data,
                 "spam.gv".data],
         cwd_arg := none, quiet := false,
         rendered := "spam.gv.png".data, warnings := [] } : RenderOk).rendered
        = spec_default_result ⟨false, ["spam.gv".data]⟩ "png".data none none := by
  have h1 : render ["dot".data] ["png".data] [] [] "dot".data (some "png".data)
      (some ⟨false, ["spam.gv".data]⟩) none none false none false false
    = .ok { cmd := ["dot".data, "-Kdot".data, "-Tpng".data, "-O".data,
                    "spam.gv".data],
            cwd_arg := none, quiet := false,
            rendered := "spam.gv.png".data, warnings := [] } := by rfl
  exact ⟨h1, claimC2_default_result_path _ _ _ _ _ _ _ _ _ _ _ _ _ h1⟩

/-- C4: in explicit-output mode, once format resolution and command building
succeed, a call with `overwrite_filepath=False` whose outfile name equals the
source name and whose resolved forms coincide fails with the same-file
error; and with `overwrite_filepath=True` no call fails with that error. -/
theorem claimC4_same_file_collision (engines fmts cwd fs : List Str)
    (engine : Str) (format : Option Str) (renderer formatter : Option Str)
    (quiet : Bool) (rie : Bool) (fp ou : PyPath) (fmt : Str)
    (warns : List RWarning) (cmd0 : List Str)
    (hfmt : get_rendering_format fmts ou format = .ok (fmt, warns))
    (hcmd : dot_command engines fmts engine fmt renderer formatter = .ok cmd0)
    (hname : ou.name = fp.name) (hres : ou.resolve cwd = fp.resolve cwd) :
    render engines fmts cwd fs engine format (some fp) renderer formatter quiet
        (some ou) rie false
      = .error (.sameFile ou.name fp.name)
    ∧ ∀ a b : Str,
        render engines fmts cwd fs engine format (some fp) renderer formatter
            quiet (some ou) rie true
          ≠ .error (.sameFile a b) := by
  constructor
  · have hcore := renderCore_explicit engines fmts cwd engine format renderer
      formatter (some fp) fp ou rie false fmt warns cmd0 (by simp) hfmt hcmd rfl
    rw [if_pos ⟨by simp, hname, hres⟩] at hcore
    unfold render
    rw [hcore]
  · intro a b
    exact render_ow_true_ne_sameFile engines fmts cwd fs engine format
      (some fp) renderer formatter quiet (some ou) rie a b

/-- C4 witness: outfile and source both `spam.png`. -/
theorem claimC4_witness :
    render ["dot".data] ["png".data] [] [] "dot".data none
        (some ⟨false, ["spam.png".data]⟩) none none false
        (some ⟨false, ["spam.png".data]⟩) false false
      = .error (.sameFile "spam.png".data "spam.png".data)
    ∧ render ["dot".data] ["png".data] [] [] "dot".data none
        (some ⟨false, ["spam.png".data]⟩) none none false
        (some ⟨false, ["spam.png".data]⟩) false true
      ≠ .error (.sameFile "spam.png".data "spam.png".data) := by
  have h4 := claimC4_same_file_collision ["dot".data] ["png".data] [] []
    "dot".data none none none false false ⟨false, ["spam.png".data]⟩
    ⟨false, ["spam.png".data]⟩ "png".data [] ["dot".data, "-Kdot".data, "-Tpng".data]
    (by rfl) (by rfl) rfl rfl
  exact ⟨h4.1, h4.2 "spam.png".data "spam.png".data⟩

/-- C6: with `raise_if_result_exists` set, a successful `render` implies the
result path did not exist; whenever the core's computed result path exists,
`render` fails with the result-exists error (so the engine is never
invoked); and a second identical call after a success fails with the
result-exists error for the first call's result path. -/
theorem claimC6_raise_if_result_exists (engines fmts cwd fs : List Str)
    (engine : Str) (format : Option Str) (filepath : Option PyPath)
    (renderer formatter : Option Str) (quiet : Bool) (outfile : Option PyPath)
    (ow : Bool) :
    (∀ r : RenderOk,
      render engines fmts cwd fs engine format filepath renderer formatter
          quiet outfile true ow = .ok r →
        r.rendered ∉ fs)
    ∧ (∀ (fp : PyPath) (cmd : List Str) (rendered : PyPath)
          (warns : List RWarning),
        renderCore engines fmts cwd engine format filepath renderer formatter
            outfile true ow = .ok (fp, cmd, rendered, warns) →
        rendered.fspath ∈ fs →
        render engines fmts cwd fs engine format filepath renderer formatter
            quiet outfile true ow
          = .error (.resultExists rendered.fspath))
    ∧ (∀ r : RenderOk,
        render engines fmts cwd fs engine format filepath renderer formatter
            quiet outfile true ow = .ok r →
        render engines fmts cwd (r.rendered :: fs) engine format filepath
            renderer formatter quiet outfile true ow
          = .error (.resultExists r.rendered)) := by
  refine ⟨?_, ?_, ?_⟩
  · intro r h hmem
    obtain ⟨fp, cmd, rendered, warns, hc, hm, hr⟩ :=
      render_ok_inv engines fmts cwd fs engine format filepath renderer
        formatter quiet outfile true ow r h
    apply hm
    refine ⟨rfl, ?_⟩
    rw [hr] at hmem
    exact hmem
  · intro fp cmd rendered warns hc hmem
    unfold render
    rw [hc]
    dsimp only
    rw [if_pos ⟨rfl, hmem⟩]
  · intro r h
    obtain ⟨fp, cmd, rendered, warns, hc, hm, hr⟩ :=
      render_ok_inv engines fmts cwd fs engine format filepath renderer
        formatter quiet outfile true ow r h
    unfold render
    rw [hc]
    dsimp only
    have hmem : rendered.fspath ∈ r.rendered :: fs := by
      rw [hr]
      exact List.mem_cons_self _ _
    rw [if_pos ⟨rfl, hmem⟩, hr]

/-- C6 witness: with a stub engine, rendering `spam.gv` to `spam.gv.png`
succeeds on an empty filesystem, and the identical second call (result file
now existing) fails with the result-exists error. -/
theorem claimC6_witness :
    render ["dot".data] ["png".data] [] [] "dot".data (some "png".data)
        (some ⟨false, ["spam.gv".data]⟩) none none false none true false
      = .ok { cmd := ["dot".data, "-Kdot".data, "-Tpng".data, "-O".data,
                      "spam.gv".data],
              cwd_arg := none, quiet := false,
              rendered := "spam.gv.png".data, warnings := [] }
    ∧ render ["dot".data] ["png".data] [] ["spam.gv.png".data] "dot".data
        (some "png".data) (some ⟨false, ["spam.gv".data]⟩) none none false
        none true false
      = .error (.resultExists "spam.gv.png".data) := by
  have h1 : render ["dot".data] ["png".data] [] [] "dot".data (some "png".data)
      (some ⟨false, ["spam.gv".data]⟩) none none false none true false
    = .ok { cmd := ["dot".data, "-Kdot".data, "-Tpng".data, "-O".data,
                    "spam.gv".data],
            cwd_arg := none, quiet := false,
            rendered := "spam.gv.png".data, warnings := [] } := by rfl
  exact ⟨h1, (claimC6_raise_if_result_exists ["dot".data] ["png".data] [] []
    "dot".data (some "png".data) (some ⟨false, ["spam.gv".data]⟩) none none
    false none false).2.2 _ h1⟩

/-- C8: in explicit-output mode, a successful `render` returns exactly the
outfile's path string, preserving relativity. -/
theorem claimC8_result_is_outfile (engines fmts cwd fs : List Str)
    (engine : Str) (format : Option Str) (filepath : Option PyPath)
    (renderer formatter : Option Str) (quiet : Bool) (ou : PyPath)
    (rie ow : Bool) (r : RenderOk)
    (h : render engines fmts cwd fs engine format filepath renderer formatter
           quiet (some ou) rie ow = .ok r) :
    r.rendered = ou.fspath := by
  obtain ⟨fp, cmd, rendered, warns, hc, hm, hr⟩ :=
    render_ok_inv engines fmts cwd fs engine format filepath renderer
      formatter quiet (some ou) rie ow r h
  obtain ⟨h1, _, _⟩ :=
    renderCore_explicit_ok_inv engines fmts cwd engine format filepath
      renderer formatter ou rie ow fp cmd rendered warns hc
  rw [hr, h1]

/-- C8 witness: `render(dot, outfile=spam.pdf)` returns `spam.pdf`, with the
derived source `spam.gv` both absent from and present on the filesystem. -/
theorem claimC8_witness :
    render ["dot".data] ["pdf".data] [] [] "dot".data none none none none
        false (some ⟨false, ["spam.pdf".data]⟩) false false
      = .ok { cmd := ["dot".data, "-Kdot".data, "-Tpdf".data, "-o".data,
                      "spam.pdf".data, "spam.gv".data],
              cwd_arg := none, quiet := false,
              rendered := "spam.pdf".data, warnings := [] }
    ∧ render ["dot".data] ["pdf".data] [] ["spam.gv".data] "dot".data none
        none none none false (some ⟨false, ["spam.pdf".data]⟩) false false
      = .ok { cmd := ["dot".data, "-Kdot".data, "-Tpdf".data, "-o".data,
                      "spam.pdf".data, "spam.gv".data],
              cwd_arg := none, quiet := false,
              rendered := "spam.pdf".data, warnings := [] }
    ∧ ({ cmd := ["dot".data, "-Kdot".data, "-Tpdf".data, "-o".data,
                 "spam.pdf".data, "spam.gv".data],
         cwd_arg := none, quiet := false,
         rendered := "spam.pdf".data, warnings := [] } : RenderOk).rendered
        = (⟨false, ["spam.pdf".data]⟩ : PyPath).fspath := by
  have h1 : render ["dot".data] ["pdf".data] [] [] "dot".data none none none
      none false (some ⟨false, ["spam.pdf".data]⟩) false false
    = .ok { cmd := ["dot".data, "-Kdot".data, "-Tpdf".data, "-o".data,
                    "spam.pdf".data, "spam.gv".data],
            cwd_arg := none, quiet := false,
            rendered := "spam.pdf".data, warnings := [] } := by rfl
  exact ⟨h1, by rfl,
    claimC8_result_is_outfile _ _ _ _ _ _ _ _ _ _ _ _ _ _ h1⟩

/-- C9: in explicit-output mode with a given source path, the command of a
successful `render` ends with `-o`, then the resolved absolute outfile when
outfile and source are in different directories and just the outfile's name
otherwise, then the source file name. -/
theorem claimC9_output_path_argument (engines fmts cwd fs : List Str)
    (engine : Str) (format : Option Str) (renderer formatter : Option Str)
    (quiet : Bool) (fps ou : PyPath) (rie ow : Bool) (r : RenderOk)
    (h : render engines fmts cwd fs engine format (some fps) renderer
           formatter quiet (some ou) rie ow = .ok r) :
    List.IsSuffix
      ["-o".data,
       (if ou.parent ≠ fps.parent then (ou.resolve cwd).fspath else ou.name),
       fps.name]
      r.cmd := by
  obtain ⟨fp, cmd, rendered, warns, hc, hm, hr⟩ :=
    render_ok_inv engines fmts cwd fs engine format (some fps) renderer
      formatter quiet (some ou) rie ow r h
  obtain ⟨h1, h2, cmd0, h3⟩ :=
    renderCore_explicit_ok_inv engines fmts cwd engine format (some fps)
      renderer formatter ou rie ow fp cmd rendered warns hc
  have hfp : fps = fp := by
    rcases h2 with ⟨hno, _⟩ | hsome
    · exact absurd hno (by simp)
    · exact Option.some.inj hsome
  subst hfp
  rw [hr, h3]
  exact ⟨cmd0, rfl⟩

/-- C9 witness: outfile `out/spam.png` with source `spam.gv` in the working
directory `/work`: the command carries the resolved `/work/out/spam.png`. -/
theorem claimC9_witness :
    render ["dot".data] ["png".data] ["work".data] [] "dot".data none
        (some ⟨false, ["spam.gv".data]⟩) none none false
        (some ⟨false, ["out".data, "spam.png".data]⟩) false false
      = .ok { cmd := ["dot".data, "-Kdot".data, "-Tpng".data, "-o".data,
                      "/work/out/spam.png".data, "spam.gv".data],
              cwd_arg := none, quiet := false,
              rendered := "out/spam.png".data, warnings := [] }
    ∧ List.IsSuffix
        ["-o".data, "/work/out/spam.png".data, "spam.gv".data]
        ({ cmd := ["dot".data, "-Kdot".data, "-Tpng".data, "-o".data,
                   "/work/out/spam.png".data, "spam.gv".data],
           cwd_arg := none, quiet := false,
           rendered := "out/spam.png".data, warnings := [] } : RenderOk).cmd := by
  have h1 : render ["dot".data] ["png".data] ["work".data] [] "dot".data none
      (some ⟨false, ["spam.gv".data]⟩) none none false
      (some ⟨false, ["out".data, "spam.png".data]⟩) false false
    = .ok { cmd := ["dot".data, "-Kdot".data, "-Tpng".data, "-o".data,
                    "/work/out/spam.png".data, "spam.gv".data],
            cwd_arg := none, quiet := false,
            rendered := "out/spam.png".data, warnings := [] } := by rfl
  exact ⟨h1, claimC9_output_path_argument _ _ _ _ _ _ _ _ _ _ _ _ _ _ h1⟩

/-- C10: with no source path given and an outfile whose suffix is the default
source suffix, the derived source equals the outfile, so once format
resolution and command building succeed `render` fails with the same-file
error — unless `overwrite_filepath` is set, in which case no same-file error
is raised. -/
theorem claimC10_outfile_named_like_source (engines fmts cwd fs : List Str)
    (engine : Str) (format : Option Str) (renderer formatter : Option Str)
    (quiet : Bool) (rie : Bool) (ou : PyPath) (fmt : Str)
    (warns : List RWarning) (cmd0 : List Str)
    (hsuf : ou.suffix = '.' :: DEFAULT_SOURCE_EXTENSION)
    (hfmt : get_rendering_format fmts ou format = .ok (fmt, warns))
    (hcmd : dot_command engines fmts engine fmt renderer formatter = .ok cmd0) :
    render engines fmts cwd fs engine format none renderer formatter quiet
        (some ou) rie false
      = .error (.sameFile ou.name ou.name)
    ∧ ∀ a b : Str,
        render engines fmts cwd fs engine format none renderer formatter quiet
            (some ou) rie true
          ≠ .error (.sameFile a b) := by
  constructor
  · have hws : ou.with_suffix ('.' :: DEFAULT_SOURCE_EXTENSION) = some ou := by
      rw [← hsuf]
      exact with_suffix_self ou (by rw [hsuf]; simp)
    have hcore := renderCore_explicit engines fmts cwd engine format renderer
      formatter none ou ou rie false fmt warns cmd0 (by simp) hfmt hcmd hws
    rw [if_pos ⟨by simp, rfl, rfl⟩] at hcore
    unfold render
    rw [hcore]
  · intro a b
    exact render_ow_true_ne_sameFile engines fmts cwd fs engine format none
      renderer formatter quiet (some ou) rie a b

/-- C10 witness: outfile `spam.gv` with explicit format `png` (and `gv` not a
supported format, so resolution succeeds via the explicit format). -/
theorem claimC10_witness :
    (⟨false, ["spam.gv".data]⟩ : PyPath).suffix = '.' :: DEFAULT_SOURCE_EXTENSION
    ∧ render ["dot".data] ["png".data] [] [] "dot".data (some "png".data) none
        none none false (some ⟨false, ["spam.gv".data]⟩) false false
      = .error (.sameFile "spam.gv".data "spam.gv".data)
    ∧ render ["dot".data] ["png".data] [] [] "dot".data (some "png".data) none
        none none false (some ⟨false, ["spam.gv".data]⟩) false true
      ≠ .error (.sameFile "spam.gv".data "spam.gv".data) := by
  have h10 := claimC10_outfile_named_like_source ["dot".data] ["png".data] []
    [] "dot".data (some "png".data) none none false false
    ⟨false, ["spam.gv".data]⟩ "png".data
    [.unknownSuffix ".gv".data ".png".data] ["dot".data, "-Kdot".data, "-Tpng".data]
    (by rfl) (by rfl) (by rfl)
  exact ⟨by rfl, h10.1, h10.2 "spam.gv".data "spam.gv".data⟩

end Gviz
